import Mathlib

/-!
Verification of the short-URL service core (shallow embedding).

The definitions below are translated from the Go sources of the
repository:
  * `internal/service` — base-62 short-code encoding/decoding, left
    padding, `CreateShortURL`, `GetOriginalURL`, `GetURLStats`;
  * `internal/repository` — the PostgreSQL row operations and the Redis
    counter/cache primitives (modelled as pure state transformers, with
    explicit fault flags standing for I/O failures);
  * `internal/scheduler` — the click-count reconciliation run
    (`syncClickCounts`);
  * `internal/middleware` — the sliding-window rate limiter.

Machine integers (`int64`) are modelled as `Nat`/`Int`; the identifiers
handled by the store stay below `2^63`, where the `Nat` model agrees
with Go's `int64` arithmetic.  Fallible operations return `Except`.
Timestamps are abstract integers (nanoseconds in the source).
-/

/-! ### Base-62 short-code generator (`internal/service`, `encodeBase62` /
`decodeBase62` and the padding loop of `CreateShortURL`) -/

/-- The alphabet used by the short-code generator
(`const base62Chars = "0123...xyz"` in the source). -/
def base62Chars : String :=
  "0123456789ABCDEFGHIJKLMNOPQRSTUVWXYZabcdefghijklmnopqrstuvwxyz"

/-- `base62Chars[n]` — the symbol for digit value `n`. -/
def b62digit (n : Nat) : Char :=
  base62Chars.toList.getD n '0'

/-- The per-character decoding of `decodeBase62`: digits, then
uppercase, then lowercase; any other character contributes 0 (the
source's fall-through, a documented quirk). -/
def decodeChar (c : Char) : Nat :=
  if '0' ≤ c ∧ c ≤ '9' then c.toNat - '0'.toNat
  else if 'A' ≤ c ∧ c ≤ 'Z' then c.toNat - 'A'.toNat + 10
  else if 'a' ≤ c ∧ c ≤ 'z' then c.toNat - 'a'.toNat + 36
  else 0

/-- One step of the decoding loop: `num = num*62 + digit(c)`. -/
def decodeStep (num : Nat) (c : Char) : Nat :=
  num * 62 + decodeChar c

/-- `decodeBase62` on an explicit character list. -/
def decodeList (l : List Char) : Nat :=
  l.foldl decodeStep 0

/-- `decodeBase62(s)`: fold the decoding step over the characters of `s`. -/
def decodeBase62 (s : String) : Nat :=
  decodeList s.toList

/-- The digit-emitting loop of `encodeBase62`, least-significant symbol
first.  The loop `for num > 0 { emit(num%62); num /= 62 }` is given the
explicit fuel `fuel ≥ num`, which always suffices since `num/62 < num`. -/
def encodeAux : Nat → Nat → List Char
  | _, 0 => []
  | 0, _ + 1 => []
  | fuel + 1, num + 1 => b62digit ((num + 1) % 62) :: encodeAux fuel ((num + 1) / 62)

/-- `encodeBase62(num)`: `"0"` for zero, otherwise the emitted digits
reversed (most-significant symbol first). -/
def encodeBase62 (num : Nat) : String :=
  if num = 0 then String.mk [b62digit 0]
  else String.mk (encodeAux num num).reverse

/-- The padding loop of `CreateShortURL`:
`for len(shortCode) < minLen { shortCode = "0" + shortCode }`, on
character lists, with fuel `minLen` (each pass grows the length by one,
so `minLen` passes always reach the exit condition). -/
def padAux : Nat → Nat → List Char → List Char
  | 0, _, l => l
  | fuel + 1, minLen, l =>
    if l.length < minLen then padAux fuel minLen ('0' :: l) else l

/-- Left-pad a short code with the zero symbol up to the configured
minimum length (`cfg.URL.ShortCodeLength`). -/
def padCode (minLen : Nat) (s : String) : String :=
  String.mk (padAux minLen minLen s.toList)

theorem decodeChar_b62digit : ∀ d < 62, decodeChar (b62digit d) = d := by
  decide

theorem decodeList_append (l₁ l₂ : List Char) :
    decodeList (l₁ ++ l₂) = l₂.foldl decodeStep (decodeList l₁) := by
  simp [decodeList, List.foldl_append]

theorem decodeList_reverse_encodeAux (fuel num : Nat) (h : num ≤ fuel) :
    decodeList (encodeAux fuel num).reverse = num := by
  induction fuel generalizing num with
  | zero =>
    interval_cases num
    simp [encodeAux, decodeList]
  | succ fuel ih =>
    match num with
    | 0 => simp [encodeAux, decodeList]
    | num + 1 =>
      have hdiv : (num + 1) / 62 ≤ fuel := by
        have : (num + 1) / 62 < num + 1 := Nat.div_lt_self (Nat.succ_pos _) (by omega)
        omega
      rw [encodeAux, List.reverse_cons, decodeList_append, List.foldl_cons, List.foldl_nil,
        ih _ hdiv, decodeStep, decodeChar_b62digit _ (Nat.mod_lt _ (by omega))]
      omega

theorem decodeList_cons_zero (l : List Char) :
    decodeList ('0' :: l) = decodeList l := by
  simp [decodeList, decodeStep, decodeChar]

theorem decodeList_padAux (fuel minLen : Nat) (l : List Char) :
    decodeList (padAux fuel minLen l) = decodeList l := by
  induction fuel generalizing l with
  | zero => rfl
  | succ fuel ih =>
    rw [padAux]
    split
    · rw [ih, decodeList_cons_zero]
    · rfl

theorem decodeBase62_encodeBase62 (n : Nat) :
    decodeBase62 (encodeBase62 n) = n := by
  unfold encodeBase62
  split
  · subst n
    simp [decodeBase62, String.toList, decodeList, decodeStep, decodeChar, b62digit, base62Chars]
  · exact decodeList_reverse_encodeAux n n le_rfl


/-! ### Data model (`internal/model/url.go`, `migrations/001_init.sql`) -/

/-- A row of the `urls` table / `model.URL`.  Timestamps are abstract
integers; `expiresAt = none` models a NULL `expires_at`. -/
structure URLRec where
  id : Nat
  shortCode : String
  urlHash : String
  originalURL : String
  clickCount : Int
  createdAt : Int
  updatedAt : Int
  expiresAt : Option Int
  isActive : Bool
deriving DecidableEq, Repr

/-- `URL.IsExpired`: false when `expires_at` is unset, otherwise
`time.Now().After(expiry)`, i.e. strictly `expiry < now`. -/
def isExpired (expiresAt : Option Int) (now : Int) : Bool :=
  match expiresAt with
  | none => false
  | some e => decide (e < now)

/-- `URL.IsValid`: active and not expired. -/
def isValidRec (u : URLRec) (now : Int) : Bool :=
  u.isActive && !isExpired u.expiresAt now

/-- The state of the Durable Store (`urls` table): the rows plus the
next `BIGSERIAL` identity. -/
structure PgState where
  urls : List URLRec
  nextId : Nat
deriving DecidableEq, Repr

/-- Failures of a Durable Store write: a distinguished not-found
condition (`ErrURLNotFound`, raised when `RowsAffected() == 0`) versus
any other I/O failure. -/
inductive PgErr where
  | notFound
  | execFailed
deriving DecidableEq, Repr

/-! ### Durable Store operations (`internal/repository`, Postgres) -/

/-- `GetURLByHash`: `SELECT ... WHERE url_hash = $1`; `url_hash` is
UNIQUE, so the first matching row is the only one.  A missing row is
`none` (the source returns `nil, nil`). -/
def getURLByHash (st : PgState) (urlHash : String) : Option URLRec :=
  st.urls.find? (fun r => r.urlHash == urlHash)

/-- `GetURLByShortCode`: `SELECT ... WHERE short_code = $1`; `none`
models `ErrURLNotFound`. -/
def getURLByShortCode (st : PgState) (shortCode : String) : Option URLRec :=
  st.urls.find? (fun r => r.shortCode == shortCode)

/-- `CreateURL`: `INSERT INTO urls (short_code, url_hash, ...) VALUES
('temp', $1, ...) RETURNING id, ...`.  The insert fails when it would
violate the UNIQUE constraints on `url_hash` or `short_code` (the
placeholder `'temp'`). -/
def createURL (st : PgState) (urlHash originalURL : String) (expiresAt : Option Int)
    (now : Int) : Except PgErr (URLRec × PgState) :=
  if st.urls.any (fun r => r.urlHash == urlHash || r.shortCode == "temp") then
    .error .execFailed
  else
    let u : URLRec :=
      { id := st.nextId, shortCode := "temp", urlHash := urlHash,
        originalURL := originalURL, clickCount := 0, createdAt := now,
        updatedAt := now, expiresAt := expiresAt, isActive := true }
    .ok (u, { urls := st.urls ++ [u], nextId := st.nextId + 1 })

/-- `UpdateShortCode`: `UPDATE urls SET short_code = $1 WHERE id = $2`. -/
def updateShortCode (st : PgState) (id : Nat) (code : String) : PgState :=
  { st with
      urls := st.urls.map (fun r => if r.id == id then { r with shortCode := code } else r) }

/-- `IncrementClickCountBy`: `UPDATE urls SET click_count = click_count
+ $1 WHERE short_code = $2`; an I/O failure is `execFailed` (the fault
flag), and `RowsAffected() == 0` — no row with that short code — is
`ErrURLNotFound`. -/
def pgIncrementClickCountBy (st : PgState) (ioFail : Bool) (shortCode : String)
    (count : Int) : Except PgErr PgState :=
  if ioFail then .error .execFailed
  else if st.urls.any (fun r => r.shortCode == shortCode) then
    .ok { st with
            urls := st.urls.map (fun r =>
              if r.shortCode == shortCode then { r with clickCount := r.clickCount + count }
              else r) }
  else .error .notFound

/-! ### Fast Store operations (`internal/repository`, Redis click
counters).  The pending click counters are a total map from short code
to accumulated count (an absent key reads as 0, as in the source where
`redis.Nil` is mapped to 0).  A `Bool` fault flag models an unreachable
store. -/

/-- `RedisRepository.IncrementClickCountBy` (`INCRBY clicks:code n`). -/
def redisIncrementClickCountBy (counts : String → Int) (fail : Bool) (shortCode : String)
    (delta : Int) : Except Unit (String → Int) :=
  if fail then .error ()
  else .ok (fun k => if k = shortCode then counts k + delta else counts k)

/-- `RedisRepository.GetClickCount` (`GET clicks:code`, `redis.Nil ↦ 0`).
The Go method returns the pair `(0, err)` on failure; the caller keeps
the 0 and only logs the error. -/
def redisGetClickCount (counts : String → Int) (fail : Bool) (shortCode : String) :
    Int × Bool :=
  if fail then (0, true) else (counts shortCode, false)

/-- `RedisRepository.GetAndResetClickCount` (`GETDEL clicks:code`):
atomically read the counter and delete the key (so it reads 0
afterwards). -/
def getAndResetClickCount (counts : String → Int) (fail : Bool) (shortCode : String) :
    Except Unit (Int × (String → Int)) :=
  if fail then .error ()
  else .ok (counts shortCode, fun k => if k = shortCode then 0 else counts k)

/-! ### Service layer (`internal/service`) -/

/-- Typed errors of the resolve/stats paths: `ErrURLNotFound` and
`ErrURLExpired`. -/
inductive LookupErr where
  | notFound
  | expired
deriving DecidableEq, Repr

/-- The failure of `CreateShortURL` when the Durable Store insert
fails. -/
inductive CreateErr where
  | storeErr
deriving DecidableEq, Repr

/-- The response of `CreateShortURL` (`model.CreateURLResponse`); the
`short_url` field is `baseURL ++ "/" ++ shortCode` and carries no
further information, so it is not repeated here. -/
structure CreateResp where
  shortCode : String
  originalURL : String
  expiresAt : Option Int
deriving DecidableEq, Repr

/-- The create path of `CreateShortURL` once the dedup lookup found no
valid record: insert the row, derive the short code from the assigned
id, left-pad it, and persist it with `UpdateShortCode`.  The hash
function (`hashURL`, a SHA-256 digest in the source) is an explicit
parameter; the best-effort cache population (`SetURL`) does not affect
the Durable Store or the response and is not part of this state. -/
def createNewURL (hashFn : String → String) (minLen : Nat) (st : PgState)
    (reqURL : String) (expiresAt : Option Int) (now : Int) :
    Except CreateErr CreateResp × PgState :=
  match createURL st (hashFn reqURL) reqURL expiresAt now with
  | .error _ => (.error .storeErr, st)
  | .ok (u, st') =>
    let code := padCode minLen (encodeBase62 u.id)
    (.ok { shortCode := code, originalURL := reqURL, expiresAt := expiresAt },
     updateShortCode st' u.id code)

/-- `CreateShortURL`: dedup lookup by content hash; a valid existing
record short-circuits with its existing short code and leaves the store
untouched; otherwise a new record is created.  The requested expiry
(`req.ExpiresIn`, resolved by `parseDuration`) is modelled as the
already-resolved `Option Int`. -/
def createShortURL (hashFn : String → String) (minLen : Nat) (st : PgState)
    (reqURL : String) (expiresAt : Option Int) (now : Int) :
    Except CreateErr CreateResp × PgState :=
  match getURLByHash st (hashFn reqURL) with
  | some existing =>
    if isValidRec existing now then
      (.ok { shortCode := existing.shortCode, originalURL := existing.originalURL,
             expiresAt := existing.expiresAt }, st)
    else createNewURL hashFn minLen st reqURL expiresAt now
  | none => createNewURL hashFn minLen st reqURL expiresAt now

/-- `GetOriginalURL` (the Resolve path): try the cache snapshot (a
failed cache read is logged and treated as a miss); a cached record
that is not valid fails with `ErrURLExpired` without consulting the
Durable Store; on a miss, read the Durable Store, failing with
`ErrURLNotFound` or `ErrURLExpired`.  The best-effort side effects
(cache population and the Redis click increment, both logged-and-
swallowed) do not affect the returned value and are modelled
separately. -/
def getOriginalURL (cache : String → Option URLRec) (cacheFail : Bool) (st : PgState)
    (shortCode : String) (now : Int) : Except LookupErr String :=
  let cached := if cacheFail then none else cache shortCode
  match cached with
  | some url =>
    if !isValidRec url now then .error .expired
    else .ok url.originalURL
  | none =>
    match getURLByShortCode st shortCode with
    | none => .error .notFound
    | some url =>
      if !isValidRec url now then .error .expired
      else .ok url.originalURL

/-- The response of `GetURLStats` (`model.URLStatsResponse`). -/
structure StatsResp where
  shortCode : String
  originalURL : String
  clickCount : Int
  createdAt : Int
  expiresAt : Option Int
  isActive : Bool
deriving DecidableEq, Repr

/-- `GetURLStats`: read the row from the Durable Store
(`GetURLStats = GetURLByShortCode`), then add the pending Redis counter;
a failed Redis read contributes the 0 the Go method returned alongside
its error, which is only logged. -/
def getURLStats (st : PgState) (counts : String → Int) (redisFail : Bool)
    (shortCode : String) : Except LookupErr StatsResp :=
  match getURLByShortCode st shortCode with
  | none => .error .notFound
  | some url =>
    let pendingClicks := (redisGetClickCount counts redisFail shortCode).1
    .ok { shortCode := url.shortCode, originalURL := url.originalURL,
          clickCount := url.clickCount + pendingClicks,
          createdAt := url.createdAt, expiresAt := url.expiresAt,
          isActive := url.isActive }

/-! ### Reconciliation scheduler (`internal/scheduler`) -/

/-- Fault injection for one reconciliation run: whether, for a given
short code, the Redis drain (`GetAndResetClickCount`), the Postgres
apply (`IncrementClickCountBy`, I/O failure as opposed to a missing
row), or the Redis restore fails. -/
structure Faults where
  drainFail : String → Bool
  applyFail : String → Bool
  restoreFail : String → Bool

/-- The shared state a reconciliation run acts on: the pending click
counters in the Fast Store and the Durable Store rows. -/
structure SyncState where
  redis : String → Int
  pg : PgState

/-- `restoreClickCount`: return a drained count to Redis after a failed
database sync (`redisRepo.IncrementClickCountBy`). -/
def restoreClickCount (counts : String → Int) (fail : Bool) (shortCode : String)
    (count : Int) : Except Unit (String → Int) :=
  redisIncrementClickCountBy counts fail shortCode count

/-- The body of the `for _, key := range keys` loop of
`syncClickCounts` for one short code: atomically drain the counter
(on failure, continue), skip zero counts, apply the drained count to
the Durable Store, and on any apply failure attempt to restore it to
Redis (a restore failure is logged as data loss). -/
def syncOne (f : Faults) (st : SyncState) (shortCode : String) : SyncState :=
  match getAndResetClickCount st.redis (f.drainFail shortCode) shortCode with
  | .error _ => st
  | .ok (count, redis') =>
    if count = 0 then { st with redis := redis' }
    else
      match pgIncrementClickCountBy st.pg (f.applyFail shortCode) shortCode count with
      | .ok pg' => { redis := redis', pg := pg' }
      | .error _ =>
        match restoreClickCount redis' (f.restoreFail shortCode) shortCode count with
        | .ok redis'' => { st with redis := redis'' }
        | .error _ => { st with redis := redis' }

/-- `syncClickCounts`: one reconciliation run over the scanned click
counter keys (already stripped to their short codes). -/
def syncClickCounts (f : Faults) (keys : List String) (st : SyncState) : SyncState :=
  keys.foldl (syncOne f) st

/-! ### Sliding-window rate limiter (`internal/middleware`) -/

/-- The per-identity window state: the members of the
`ratelimit:<ip>` sorted set (each member's score is the timestamp
itself) and the key's TTL as set by `EXPIRE`. -/
structure RLState where
  entries : List Int
  ttl : Option Int
deriving DecidableEq, Repr

/-- The rate-limit headers attached to a response; `retryAfter` is only
set on rejection. -/
structure RLHeaders where
  limit : Nat
  remaining : Nat
  resetAt : Int
  retryAfter : Option Int
deriving DecidableEq, Repr

/-- The outcome of one middleware evaluation: whether the request was
let through (`c.Next()`) or aborted with 429, and the headers set (none
when the fail-open precheck path returned without setting any). -/
structure RLDecision where
  allowed : Bool
  headers : Option RLHeaders
deriving DecidableEq, Repr

/-- `ZREMRANGEBYSCORE key lo hi`: remove the members whose score lies
in the inclusive range `[lo, hi]`. -/
def zRemRangeByScore (entries : List Int) (lo hi : Int) : List Int :=
  entries.filter (fun t => !(lo ≤ t && t ≤ hi))

/-- `ZADD key now now`: sorted-set members are unique, so adding an
existing member leaves the set unchanged. -/
def zAdd (entries : List Int) (t : Int) : List Int :=
  if t ∈ entries then entries else entries ++ [t]

/-- One evaluation of `RateLimiter.Middleware` for one identity:
compute `windowStart = now - duration`; pipeline
`ZREMRANGEBYSCORE key 0 windowStart` with `ZCARD` (on failure of this
pipeline: fail-open, allow with no headers and no state change); reject
with remaining 0 and without recording `now` when `count >= requests`;
otherwise pipeline `ZADD`/`EXPIRE` (on failure: logged, no state
change, still allowed) and report `remaining = requests - count - 1`
(the subtraction is the `Nat` truncated one, matching the source's
clamp of negative values to 0). -/
def rateLimiterMiddleware (requests : Nat) (duration : Int) (now : Int)
    (preFail recFail : Bool) (st : RLState) : RLState × RLDecision :=
  let windowStart := now - duration
  if preFail then
    (st, { allowed := true, headers := none })
  else
    let pruned := zRemRangeByScore st.entries 0 windowStart
    let count := pruned.length
    if requests ≤ count then
      ({ st with entries := pruned },
       { allowed := false,
         headers := some { limit := requests, remaining := 0,
                           resetAt := now + duration, retryAfter := some duration } })
    else
      let st' : RLState :=
        if recFail then { st with entries := pruned }
        else { entries := zAdd pruned now, ttl := some duration }
      (st', { allowed := true,
              headers := some { limit := requests, remaining := requests - count - 1,
                                resetAt := now + duration, retryAfter := none } })

/-! ### Helper instances and lemmas -/

instance {ε α : Type _} [DecidableEq ε] [DecidableEq α] : DecidableEq (Except ε α) := fun x y =>
  match x, y with
  | .error a, .error b =>
    if h : a = b then isTrue (by rw [h]) else isFalse (fun hc => h (Except.error.inj hc))
  | .error _, .ok _ => isFalse (fun hc => Except.noConfusion hc)
  | .ok _, .error _ => isFalse (fun hc => Except.noConfusion hc)
  | .ok a, .ok b =>
    if h : a = b then isTrue (by rw [h]) else isFalse (fun hc => h (Except.ok.inj hc))

theorem decodeList_replicate_zero (n : Nat) (l : List Char) :
    decodeList (List.replicate n '0' ++ l) = decodeList l := by
  induction n with
  | zero => simp
  | succ n ih => rw [List.replicate_succ, List.cons_append, decodeList_cons_zero, ih]

/-! ### Claim theorems -/

/-- C5: for every non-negative id within the store's identifier range
(`BIGSERIAL`, below `2^63`), `decode(encode(id)) == id`: the base-62
positional encoding and its inverse round-trip. -/
theorem claim5_decode_encode (id : Nat) (h : id < 2 ^ 63) :
    decodeBase62 (encodeBase62 id) = id :=
  decodeBase62_encodeBase62 id

theorem claim5_witness :
    123456 < 2 ^ 63 ∧ decodeBase62 (encodeBase62 123456) = 123456 :=
  ⟨by norm_num, claim5_decode_encode 123456 (by norm_num)⟩

/-- C10: prefixing a code with any number of zero symbols does not
change the value it decodes to, and consequently the left padding that
`CreateShortURL` applies to reach the configured minimum length never
changes the id the short code decodes to. -/
theorem claim10_decode_padding (s : String) (n minLen : Nat) :
    decodeBase62 (String.mk (List.replicate n '0' ++ s.toList)) = decodeBase62 s ∧
    decodeBase62 (padCode minLen s) = decodeBase62 s := by
  constructor
  · exact decodeList_replicate_zero n s.toList
  · exact decodeList_padAux minLen minLen s.toList

/-- C3, counterexample: with `windowStart = 10`, the recorded timestamp
`10` is *not* strictly older than `windowStart` — yet the prune step
(`ZREMRANGEBYSCORE key 0 windowStart`, an inclusive range) removes it,
so a timestamp equal to `windowStart` is removed, not kept. -/
theorem claim3_counterexample :
    zRemRangeByScore [10] 0 10 = [] ∧ ¬ ((10 : Int) < 10) := by
  decide

/-- C3 as amended: on every evaluation the limiter computes
`windowStart = now - windowDuration` and removes exactly the recorded
timestamps older than *or equal to* `windowStart` (timestamps being
nonnegative), keeping exactly the strictly newer ones, then counts the
remainder. -/
theorem claim3_prune_amended (entries : List Int) (now duration : Int)
    (h : ∀ t ∈ entries, 0 ≤ t) :
    zRemRangeByScore entries 0 (now - duration) =
      entries.filter (fun t => decide (now - duration < t)) := by
  unfold zRemRangeByScore
  apply List.filter_congr
  intro t ht
  have h0 : (0 : Int) ≤ t := h t ht
  by_cases hts : t ≤ now - duration
  · simp [h0, hts, not_lt.mpr hts]
  · simp [h0, hts, lt_of_not_le hts]

theorem claim3_witness :
    (∀ t ∈ [(3 : Int), 10, 15], 0 ≤ t) ∧
    zRemRangeByScore [(3 : Int), 10, 15] 0 (15 - 5) =
      [(3 : Int), 10, 15].filter (fun t => decide ((15 : Int) - 5 < t)) :=
  ⟨by decide, claim3_prune_amended [3, 10, 15] 15 5 (by decide)⟩

theorem mem_zAdd (l : List Int) (t : Int) : t ∈ zAdd l t := by
  unfold zAdd
  split
  · assumption
  · simp

/-- C8: on an evaluation whose backing-store steps succeed, if the
post-prune count reaches the limit the request is rejected with
remaining 0 and nothing is added to the window (the post-state is
exactly the pruned set); if the count is below the limit the request is
allowed, `now` is in the recorded window, the key's expiry is set to
the window duration, and the reported remaining is
`limit - count - 1` (the `Nat` subtraction, i.e. floored at zero). -/
theorem claim8_decision (requests : Nat) (duration now : Int) (st : RLState) :
    (requests ≤ (zRemRangeByScore st.entries 0 (now - duration)).length →
      (rateLimiterMiddleware requests duration now false false st).2.allowed = false ∧
      ((rateLimiterMiddleware requests duration now false false st).2.headers.map
        (fun h => h.remaining)) = some 0 ∧
      (rateLimiterMiddleware requests duration now false false st).1.entries =
        zRemRangeByScore st.entries 0 (now - duration)) ∧
    ((zRemRangeByScore st.entries 0 (now - duration)).length < requests →
      (rateLimiterMiddleware requests duration now false false st).2.allowed = true ∧
      now ∈ (rateLimiterMiddleware requests duration now false false st).1.entries ∧
      (rateLimiterMiddleware requests duration now false false st).1.ttl = some duration ∧
      ((rateLimiterMiddleware requests duration now false false st).2.headers.map
        (fun h => h.remaining)) =
        some (requests - (zRemRangeByScore st.entries 0 (now - duration)).length - 1)) := by
  constructor
  · intro h
    simp [rateLimiterMiddleware, h]
  · intro h
    simp [rateLimiterMiddleware, Nat.not_le.mpr h, mem_zAdd]

theorem claim8_witness :
    ((rateLimiterMiddleware 1 5 15 false false ⟨[12], none⟩).2.allowed = false ∧
      ((rateLimiterMiddleware 1 5 15 false false ⟨[12], none⟩).2.headers.map
        (fun h => h.remaining)) = some 0 ∧
      (rateLimiterMiddleware 1 5 15 false false ⟨[12], none⟩).1.entries =
        zRemRangeByScore [12] 0 (15 - 5)) ∧
    ((rateLimiterMiddleware 3 5 15 false false ⟨[12], none⟩).2.allowed = true ∧
      (15 : Int) ∈ (rateLimiterMiddleware 3 5 15 false false ⟨[12], none⟩).1.entries ∧
      (rateLimiterMiddleware 3 5 15 false false ⟨[12], none⟩).1.ttl = some 5 ∧
      ((rateLimiterMiddleware 3 5 15 false false ⟨[12], none⟩).2.headers.map
        (fun h => h.remaining)) = some (3 - (zRemRangeByScore [12] 0 (15 - 5)).length - 1)) :=
  ⟨(claim8_decision 1 5 15 ⟨[12], none⟩).1 (by decide),
   (claim8_decision 3 5 15 ⟨[12], none⟩).2 (by decide)⟩

/-- C9: the limiter fails open — if the prune-and-count pipeline fails
the request is allowed through regardless of the window contents, and
if the record pipeline fails (reached whenever the count is below the
limit) the request is still allowed; the middleware never surfaces an
error to the caller (its outcome carries no error channel at all). -/
theorem claim9_fail_open (requests : Nat) (duration now : Int) (st : RLState)
    (recFail : Bool) :
    (rateLimiterMiddleware requests duration now true recFail st).2.allowed = true ∧
    ((zRemRangeByScore st.entries 0 (now - duration)).length < requests →
      (rateLimiterMiddleware requests duration now false true st).2.allowed = true) := by
  constructor
  · simp [rateLimiterMiddleware]
  · intro h
    simp [rateLimiterMiddleware, Nat.not_le.mpr h]

theorem claim9_witness :
    (rateLimiterMiddleware 3 5 15 true false ⟨[12], none⟩).2.allowed = true ∧
    (rateLimiterMiddleware 3 5 15 false true ⟨[12], none⟩).2.allowed = true :=
  ⟨(claim9_fail_open 3 5 15 ⟨[12], none⟩ false).1,
   (claim9_fail_open 3 5 15 ⟨[12], none⟩ false).2 (by decide)⟩

/-- C7: for an existing short code, `GetStats` reports `totalClicks` as
the Durable Store count plus the Fast Store pending counter; when the
Fast Store read fails it degrades to the Durable Store count alone and
still succeeds (the error is logged, never surfaced). -/
theorem claim7_stats (st : PgState) (counts : String → Int) (shortCode : String)
    (url : URLRec) (h : getURLByShortCode st shortCode = some url) :
    getURLStats st counts false shortCode =
      .ok { shortCode := url.shortCode, originalURL := url.originalURL,
            clickCount := url.clickCount + counts shortCode,
            createdAt := url.createdAt, expiresAt := url.expiresAt,
            isActive := url.isActive } ∧
    getURLStats st counts true shortCode =
      .ok { shortCode := url.shortCode, originalURL := url.originalURL,
            clickCount := url.clickCount, createdAt := url.createdAt,
            expiresAt := url.expiresAt, isActive := url.isActive } := by
  constructor
  · simp [getURLStats, h, redisGetClickCount]
  · simp [getURLStats, h, redisGetClickCount]

theorem claim7_witness :
    getURLStats ⟨[⟨1, "c", "h", "u", 5, 0, 0, none, true⟩], 2⟩ (fun _ => 3) false "c" =
      .ok ⟨"c", "u", 8, 0, none, true⟩ ∧
    getURLStats ⟨[⟨1, "c", "h", "u", 5, 0, 0, none, true⟩], 2⟩ (fun _ => 3) true "c" =
      .ok ⟨"c", "u", 5, 0, none, true⟩ := by
  have h := claim7_stats ⟨[⟨1, "c", "h", "u", 5, 0, 0, none, true⟩], 2⟩ (fun _ => 3) "c"
    ⟨1, "c", "h", "u", 5, 0, 0, none, true⟩ (by decide)
  exact ⟨by simpa using h.1, by simpa using h.2⟩

/-- C4, counterexample: a cached record that is active with
`expiry = now` (so `expiry <= now` holds) is still served: `Resolve`
returns the destination URL instead of failing with `ExpiredError`,
because `IsExpired` uses the strict `time.Now().After(expiry)`. -/
theorem claim4_counterexample :
    getOriginalURL (fun _ => some ⟨1, "c", "h", "u", 0, 0, 0, some 100, true⟩) false
        ⟨[], 1⟩ "c" 100 = .ok "u" ∧
    ((100 : Int) ≤ 100) ∧
    (⟨1, "c", "h", "u", 0, 0, 0, some 100, true⟩ : URLRec).isActive = true := by
  decide

/-- C4 as amended: a record is valid iff it is active and its expiry is
unset or `expiry ≥ now`; for every short code whose record has
`active = false` or `expiry < now`, `Resolve` fails with `ExpiredError`
both when the record comes from the cache snapshot and when it is read
from the Durable Store, and a cached-but-invalid snapshot fails
immediately for every Durable Store state — no fall-through. -/
theorem claim4_expired_amended (now : Int) (url : URLRec)
    (hinv : url.isActive = false ∨ ∃ e, url.expiresAt = some e ∧ e < now) :
    (∀ (cache : String → Option URLRec) (st : PgState) (code : String),
      cache code = some url →
      getOriginalURL cache false st code now = .error .expired) ∧
    (∀ (cache : String → Option URLRec) (st : PgState) (code : String),
      cache code = none → getURLByShortCode st code = some url →
      getOriginalURL cache false st code now = .error .expired) := by
  have hval : isValidRec url now = false := by
    rcases hinv with h | ⟨e, he, hlt⟩
    · simp [isValidRec, h]
    · simp [isValidRec, isExpired, he, hlt]
  constructor
  · intro cache st code hc
    simp [getOriginalURL, hc, hval]
  · intro cache st code hc hs
    simp [getOriginalURL, hc, hs, hval]

theorem claim4_witness :
    getOriginalURL (fun _ => some ⟨1, "c", "h", "u", 0, 0, 0, none, false⟩) false
        ⟨[], 1⟩ "c" 50 = .error .expired ∧
    getOriginalURL (fun _ => none) false
        ⟨[⟨2, "d", "h2", "u2", 0, 0, 0, some 10, true⟩], 3⟩ "d" 50 = .error .expired := by
  have h1 := claim4_expired_amended 50 ⟨1, "c", "h", "u", 0, 0, 0, none, false⟩ (Or.inl rfl)
  have h2 := claim4_expired_amended 50 ⟨2, "d", "h2", "u2", 0, 0, 0, some 10, true⟩
    (Or.inr ⟨10, rfl, by decide⟩)
  exact ⟨h1.1 _ ⟨[], 1⟩ "c" rfl, h2.2 _ _ "d" rfl (by decide)⟩

/-- C1, counterexample: the Durable Store has no row for short code
`"a"` (so the apply reports `ErrURLNotFound`), the pending counter
holds 5, and no I/O fault is injected — yet after the sync step the
Fast Store counter again holds the 5 drained clicks: the scheduler
*does* restore on a not-found apply failure, contradicting the claimed
"treated as orphaned, not restored" behaviour. -/
theorem claim1_counterexample :
    pgIncrementClickCountBy (⟨[], 1⟩ : PgState) false "a" 5 = .error .notFound ∧
    (syncOne ⟨fun _ => false, fun _ => false, fun _ => false⟩
      ⟨fun k => if k = "a" then 5 else 0, ⟨[], 1⟩⟩ "a").redis "a" = 5 ∧
    ¬ ((syncOne ⟨fun _ => false, fun _ => false, fun _ => false⟩
      ⟨fun k => if k = "a" then 5 else 0, ⟨[], 1⟩⟩ "a").redis "a" = 0) := by
  decide

/-- C1 as amended: when applying a drained count fails because the row
for the short code does not exist (`ErrURLNotFound`), the scheduler
behaves exactly as for any other apply failure — it restores the
drained count to the Fast Store (so the counter again holds its
pre-drain value); only a failure of the restore itself is logged as
data loss. -/
theorem claim1_notfound_restores_amended (f : Faults) (st : SyncState) (code : String)
    (hdrain : f.drainFail code = false)
    (hrow : getURLByShortCode st.pg code = none)
    (happly : f.applyFail code = false)
    (hrestore : f.restoreFail code = false) :
    (syncOne f st code).redis code = st.redis code := by
  have hany : (st.pg.urls.any fun r => r.shortCode == code) = false := by
    rw [List.any_eq_false]
    intro r hr
    exact (List.find?_eq_none.mp hrow) r hr
  by_cases h0 : st.redis code = 0
  · simp [syncOne, getAndResetClickCount, hdrain, h0]
  · simp [syncOne, getAndResetClickCount, hdrain, h0, pgIncrementClickCountBy, happly, hany,
      restoreClickCount, redisIncrementClickCountBy, hrestore]

theorem claim1_witness :
    ((⟨fun _ => false, fun _ => false, fun _ => false⟩ : Faults).drainFail "a" = false) ∧
    (syncOne ⟨fun _ => false, fun _ => false, fun _ => false⟩
      ⟨fun k => if k = "b" then 7 else 0, ⟨[], 1⟩⟩ "b").redis "b" =
      (fun k => if k = "b" then (7 : Int) else 0) "b" :=
  ⟨rfl, claim1_notfound_restores_amended ⟨fun _ => false, fun _ => false, fun _ => false⟩
      ⟨fun k => if k = "b" then 7 else 0, ⟨[], 1⟩⟩ "b" rfl (by decide) rfl rfl⟩

theorem syncOne_redis_ne (f : Faults) (st : SyncState) (c code : String)
    (h : c ≠ code) : (syncOne f st c).redis code = st.redis code := by
  have hne : code ≠ c := fun hc => h hc.symm
  by_cases hd : f.drainFail c
  · simp [syncOne, getAndResetClickCount, hd]
  · by_cases h0 : st.redis c = 0
    · simp [syncOne, getAndResetClickCount, hd, h0, hne]
    · by_cases ha : f.applyFail c
      · by_cases hr : f.restoreFail c
        · simp [syncOne, getAndResetClickCount, hd, h0, pgIncrementClickCountBy, ha,
            restoreClickCount, redisIncrementClickCountBy, hr, hne]
        · simp [syncOne, getAndResetClickCount, hd, h0, pgIncrementClickCountBy, ha,
            restoreClickCount, redisIncrementClickCountBy, hr, hne]
      · by_cases hany : (st.pg.urls.any fun r => r.shortCode == c)
        · simp [syncOne, getAndResetClickCount, hd, h0, pgIncrementClickCountBy, ha, hany, hne]
        · by_cases hr : f.restoreFail c
          · simp [syncOne, getAndResetClickCount, hd, h0, pgIncrementClickCountBy, ha, hany,
              restoreClickCount, redisIncrementClickCountBy, hr, hne]
          · simp [syncOne, getAndResetClickCount, hd, h0, pgIncrementClickCountBy, ha, hany,
              restoreClickCount, redisIncrementClickCountBy, hr, hne]

theorem syncOne_applyFail_restored (f : Faults) (st : SyncState) (code : String)
    (hdrain : f.drainFail code = false)
    (happly : f.applyFail code = true)
    (hrestore : f.restoreFail code = false) :
    (syncOne f st code).redis code = st.redis code := by
  by_cases h0 : st.redis code = 0
  · simp [syncOne, getAndResetClickCount, hdrain, h0]
  · simp [syncOne, getAndResetClickCount, hdrain, h0, pgIncrementClickCountBy, happly,
      restoreClickCount, redisIncrementClickCountBy, hrestore]

theorem syncRun_redis_not_mem (f : Faults) (keys : List String) (st : SyncState)
    (code : String) (h : code ∉ keys) :
    (syncClickCounts f keys st).redis code = st.redis code := by
  induction keys generalizing st with
  | nil => rfl
  | cons k tl ih =>
    have hk : k ≠ code := fun hc => h (hc ▸ List.mem_cons_self k tl)
    have htl : code ∉ tl := fun hc => h (List.mem_cons_of_mem _ hc)
    show (syncClickCounts f tl (syncOne f st k)).redis code = st.redis code
    rw [ih _ htl, syncOne_redis_ne f st k code hk]

/-- C2: during a reconciliation run over distinct scanned keys, for a
short code whose Durable Store apply fails with an I/O failure (any
failure other than the row being absent) and whose restore succeeds,
the Pending Click Counter after the run holds at least its pre-drain
value — no count is lost. -/
theorem claim2_restore_preserves (f : Faults) (keys : List String) (st : SyncState)
    (code : String) (hnd : keys.Nodup) (hmem : code ∈ keys)
    (hdrain : f.drainFail code = false)
    (happly : f.applyFail code = true)
    (hrestore : f.restoreFail code = false) :
    st.redis code ≤ (syncClickCounts f keys st).redis code := by
  induction keys generalizing st with
  | nil => cases hmem
  | cons k tl ih =>
    have hrun : syncClickCounts f (k :: tl) st = syncClickCounts f tl (syncOne f st k) := rfl
    rcases List.mem_cons.mp hmem with heq | hmemtl
    · subst heq
      have hnotl : code ∉ tl := (List.nodup_cons.mp hnd).1
      rw [hrun, syncRun_redis_not_mem f tl _ code hnotl,
        syncOne_applyFail_restored f st code hdrain happly hrestore]
    · have hk : k ≠ code := by
        intro hc
        exact (List.nodup_cons.mp hnd).1 (hc ▸ hmemtl)
      rw [hrun]
      calc st.redis code = (syncOne f st k).redis code :=
            (syncOne_redis_ne f st k code hk).symm
        _ ≤ (syncClickCounts f tl (syncOne f st k)).redis code :=
            ih _ (List.nodup_cons.mp hnd).2 hmemtl

theorem claim2_witness :
    (["a", "b"] : List String).Nodup ∧
    (fun k => if k = "b" then (9 : Int) else 2) "b" ≤
      (syncClickCounts ⟨fun _ => false, fun _ => true, fun _ => false⟩ ["a", "b"]
        ⟨fun k => if k = "b" then 9 else 2, ⟨[], 1⟩⟩).redis "b" :=
  ⟨by decide, claim2_restore_preserves ⟨fun _ => false, fun _ => true, fun _ => false⟩
    ["a", "b"] ⟨fun k => if k = "b" then 9 else 2, ⟨[], 1⟩⟩ "b"
    (by decide) (by decide) rfl rfl rfl⟩

theorem getURLByHash_props {st : PgState} {h : String} {r : URLRec}
    (hf : getURLByHash st h = some r) : r ∈ st.urls ∧ r.urlHash = h := by
  refine ⟨List.mem_of_find?_eq_some hf, ?_⟩
  have := List.find?_some hf
  simpa using this

theorem find?_hash_map_append (l : List URLRec) (nr : URLRec) (g : URLRec → URLRec)
    (hsh : String)
    (hpres : ∀ r, (g r).urlHash = r.urlHash)
    (hnone : ∀ r ∈ l, ¬ r.urlHash = hsh)
    (hnr : (g nr).urlHash = hsh) :
    ((l ++ [nr]).map g).find? (fun r => r.urlHash == hsh) = some (g nr) := by
  induction l with
  | nil => simp [List.find?, hnr]
  | cons a tl ih =>
    have ha : ((g a).urlHash == hsh) = false := by
      rw [hpres a]
      exact beq_eq_false_iff_ne.mpr (hnone a (List.mem_cons_self a tl))
    simp only [List.cons_append, List.map_cons, List.find?_cons, ha]
    exact ih (fun r hr => hnone r (List.mem_cons_of_mem _ hr))

theorem createNewURL_ok_find (hashFn : String → String) (minLen : Nat) (st st1 : PgState)
    (reqURL : String) (e : Option Int) (now : Int) (r1 : CreateResp)
    (h1 : createNewURL hashFn minLen st reqURL e now = (.ok r1, st1)) :
    ∃ ex, getURLByHash st1 (hashFn reqURL) = some ex ∧ ex.shortCode = r1.shortCode := by
  unfold createNewURL createURL at h1
  by_cases hany : (st.urls.any fun r => r.urlHash == hashFn reqURL || r.shortCode == "temp")
  · rw [if_pos hany] at h1
    cases h1
  · rw [if_neg hany] at h1
    have hanyf : (st.urls.any fun r => r.urlHash == hashFn reqURL || r.shortCode == "temp") =
        false := Bool.eq_false_iff.mpr hany
    have hnone : ∀ r ∈ st.urls, ¬ r.urlHash = hashFn reqURL := by
      intro r hr hc
      have := List.any_eq_false.mp hanyf r hr
      simp [hc] at this
    obtain ⟨hr1, hst1⟩ := Prod.mk.injEq _ _ _ _ ▸ h1
    have hr1' : r1 = { shortCode := padCode minLen (encodeBase62 st.nextId),
                       originalURL := reqURL, expiresAt := e } := by
      cases hr1'' : (Except.ok r1 : Except CreateErr CreateResp) <;> simp_all
    refine ⟨{ id := st.nextId, shortCode := padCode minLen (encodeBase62 st.nextId),
              urlHash := hashFn reqURL, originalURL := reqURL, clickCount := 0,
              createdAt := now, updatedAt := now, expiresAt := e, isActive := true }, ?_, ?_⟩
    · rw [← hst1]
      unfold getURLByHash updateShortCode
      have := find?_hash_map_append st.urls
        { id := st.nextId, shortCode := "temp", urlHash := hashFn reqURL,
          originalURL := reqURL, clickCount := 0, createdAt := now, updatedAt := now,
          expiresAt := e, isActive := true }
        (fun r => if r.id == st.nextId then
            { r with shortCode := padCode minLen (encodeBase62 st.nextId) } else r)
        (hashFn reqURL)
        (fun r => by dsimp only; split <;> rfl)
        hnone
        (by simp)
      simpa using this
    · rw [hr1']

theorem createShortURL_ok_find (hashFn : String → String) (minLen : Nat)
    (st st1 : PgState) (reqURL : String) (e : Option Int) (now : Int) (r1 : CreateResp)
    (h1 : createShortURL hashFn minLen st reqURL e now = (.ok r1, st1)) :
    ∃ ex, getURLByHash st1 (hashFn reqURL) = some ex ∧ ex.shortCode = r1.shortCode := by
  unfold createShortURL at h1
  split at h1
  case h_1 ex0 hfind =>
    split at h1
    · obtain ⟨hr1, hst1⟩ := Prod.mk.inj h1
      refine ⟨ex0, hst1 ▸ hfind, ?_⟩
      rw [← Except.ok.inj hr1]
    · exact createNewURL_ok_find hashFn minLen st st1 reqURL e now r1 h1
  case h_2 hfind =>
    exact createNewURL_ok_find hashFn minLen st st1 reqURL e now r1 h1

theorem createShortURL_dedup_hit (hashFn : String → String) (minLen : Nat) (st : PgState)
    (reqURL : String) (e : Option Int) (now : Int) (ex : URLRec)
    (hex : getURLByHash st (hashFn reqURL) = some ex)
    (hval : isValidRec ex now = true) :
    createShortURL hashFn minLen st reqURL e now =
      (.ok { shortCode := ex.shortCode, originalURL := ex.originalURL,
             expiresAt := ex.expiresAt }, st) := by
  simp [createShortURL, hex, hval]

/-- C6: if a first `Create` call for a destination URL succeeded and
every record carrying that URL's content hash is still valid at the
time of a second `Create` call for the same URL, then the second call
returns the same short code and leaves the Durable Store unchanged —
no new record is created. -/
theorem claim6_dedup (hashFn : String → String) (minLen : Nat) (st st1 : PgState)
    (reqURL : String) (e1 e2 : Option Int) (now1 now2 : Int) (r1 : CreateResp)
    (h1 : createShortURL hashFn minLen st reqURL e1 now1 = (.ok r1, st1))
    (h2 : ∀ r ∈ st1.urls, r.urlHash = hashFn reqURL → isValidRec r now2 = true) :
    ∃ r2, createShortURL hashFn minLen st1 reqURL e2 now2 = (.ok r2, st1) ∧
      r2.shortCode = r1.shortCode := by
  obtain ⟨ex, hex, hcode⟩ :=
    createShortURL_ok_find hashFn minLen st st1 reqURL e1 now1 r1 h1
  obtain ⟨hmem, hhash⟩ := getURLByHash_props hex
  have hval := h2 ex hmem hhash
  exact ⟨{ shortCode := ex.shortCode, originalURL := ex.originalURL,
           expiresAt := ex.expiresAt },
    createShortURL_dedup_hit hashFn minLen st1 reqURL e2 now2 ex hex hval, hcode⟩

theorem claim6_witness :
    ∃ r2, createShortURL (fun s => s) 3 ⟨[⟨1, "001", "u", "u", 0, 0, 0, none, true⟩], 2⟩
        "u" none 7 = (.ok r2, ⟨[⟨1, "001", "u", "u", 0, 0, 0, none, true⟩], 2⟩) ∧
      r2.shortCode = "001" :=
  claim6_dedup (fun s => s) 3 ⟨[], 1⟩ ⟨[⟨1, "001", "u", "u", 0, 0, 0, none, true⟩], 2⟩
    "u" none none 0 7 ⟨"001", "u", none⟩ (by decide) (by decide)
